import Mathlib

/-!
Verification of the pairwise-alignment core of the seqtrace repository
(`src/seqtrace/core/align/pyalign.py`, class `PairwiseAlignment`).

The Python class is embedded shallowly:

* the nested substitution-score dictionary `svals` becomes an association
  list of association lists, looked up with `List.lookup`;
* the mutable object state becomes the structure `PairwiseAlignment`,
  and each method becomes a function from (and, for mutators, to) that
  structure;
* the two `(n+1) x (m+1)` matrices `scores` and `tracebk` are represented
  by the function `cell i j : Option (Int × Char)` returning the score and
  the direction mark of one matrix cell; row `0` and column `0` carry the
  initialization values of the source (score `0`; marks `'u'`, `'l'`, and
  the never-read placeholder at `[0][0]`);
* a dictionary lookup that would raise `KeyError` in Python is `none`,
  and `none` propagates to the result of `doAlignment`;
* the traceback loop, which appends columns while walking from `(n, m)`
  to `(0, 0)` and then reverses the four lists, is embedded as a recursion
  that produces the columns already in left-to-right order: the walk for
  `(i, j)` is the walk for the predecessor cell with the column for the
  current step appended;
* the final gap-marking loop keeps two independent counters for the two
  index lists, so it is embedded as one function `markGaps` applied to
  each list separately.
-/

/-- Result of the traceback walk: the four lists `seq1a`, `seq2a`,
`seq1aindex`, `seq2aindex` built by the traceback loop of `doAlignment`,
in left-to-right (already reversed) order. -/
structure TraceResult where
  seq1a : List Char
  seq2a : List Char
  seq1aindex : List Int
  seq2aindex : List Int
deriving DecidableEq

/-- State of one `PairwiseAlignment` object: the gap penalty, the two
input sequences, and the most recently computed alignment results. -/
structure PairwiseAlignment where
  gapp : Int
  seq1 : List Char
  seq2 : List Char
  seq1aligned : List Char
  seq2aligned : List Char
  seq1indexed : List Int
  seq2indexed : List Int
  score : Int
deriving DecidableEq

/-- Row `'A'` of the substitution score matrix `svals`. -/
def svalsRowA : List (Char × Int) :=
  [('A', 6), ('T', -6), ('G', -6), ('C', -6), ('W', 0), ('S', -6), ('M', 0),
   ('K', -6), ('R', 0), ('Y', -6), ('B', -6), ('D', -2), ('H', -2), ('V', -2), ('N', -3)]

/-- Row `'T'` of the substitution score matrix `svals`. -/
def svalsRowT : List (Char × Int) :=
  [('A', -6), ('T', 6), ('G', -6), ('C', -6), ('W', 0), ('S', -6), ('M', -6),
   ('K', 0), ('R', -6), ('Y', 0), ('B', -2), ('D', -2), ('H', -2), ('V', -6), ('N', -3)]

/-- Row `'G'` of the substitution score matrix `svals`. -/
def svalsRowG : List (Char × Int) :=
  [('A', -6), ('T', -6), ('G', 6), ('C', -6), ('W', -6), ('S', 0), ('M', -6),
   ('K', 0), ('R', 0), ('Y', -6), ('B', -2), ('D', -2), ('H', -6), ('V', -2), ('N', -3)]

/-- Row `'C'` of the substitution score matrix `svals`. -/
def svalsRowC : List (Char × Int) :=
  [('A', -6), ('T', -6), ('G', -6), ('C', 6), ('W', -6), ('S', 0), ('M', 0),
   ('K', -6), ('R', -6), ('Y', 0), ('B', -2), ('D', -6), ('H', -2), ('V', -2), ('N', -3)]

/-- Row `'W'` of the substitution score matrix `svals`. -/
def svalsRowW : List (Char × Int) :=
  [('A', 0), ('T', 0), ('G', -6), ('C', -6), ('W', 0), ('S', -6), ('M', -3),
   ('K', -3), ('R', -3), ('Y', -3), ('B', -4), ('D', -2), ('H', -2), ('V', -4), ('N', -3)]

/-- Row `'S'` of the substitution score matrix `svals`. -/
def svalsRowS : List (Char × Int) :=
  [('A', -6), ('T', -6), ('G', 0), ('C', 0), ('W', -6), ('S', 0), ('M', -3),
   ('K', -3), ('R', -3), ('Y', -3), ('B', -2), ('D', -4), ('H', -4), ('V', -2), ('N', -3)]

/-- Row `'M'` of the substitution score matrix `svals`. -/
def svalsRowM : List (Char × Int) :=
  [('A', 0), ('T', -6), ('G', -6), ('C', 0), ('W', -3), ('S', -3), ('M', 0),
   ('K', -6), ('R', -3), ('Y', -3), ('B', -4), ('D', -4), ('H', -2), ('V', -2), ('N', -3)]

/-- Row `'K'` of the substitution score matrix `svals`. -/
def svalsRowK : List (Char × Int) :=
  [('A', -6), ('T', 0), ('G', 0), ('C', -6), ('W', -3), ('S', -3), ('M', -6),
   ('K', 0), ('R', -3), ('Y', -3), ('B', -2), ('D', -2), ('H', -4), ('V', -4), ('N', -3)]

/-- Row `'R'` of the substitution score matrix `svals`. -/
def svalsRowR : List (Char × Int) :=
  [('A', 0), ('T', -6), ('G', 0), ('C', -6), ('W', -3), ('S', -3), ('M', -3),
   ('K', -3), ('R', 0), ('Y', -6), ('B', -4), ('D', -2), ('H', -4), ('V', -2), ('N', -3)]

/-- Row `'Y'` of the substitution score matrix `svals`. -/
def svalsRowY : List (Char × Int) :=
  [('A', -6), ('T', 0), ('G', -6), ('C', 0), ('W', -3), ('S', -3), ('M', -3),
   ('K', -3), ('R', -6), ('Y', 0), ('B', -2), ('D', -4), ('H', -2), ('V', -4), ('N', -3)]

/-- Row `'B'` of the substitution score matrix `svals`. -/
def svalsRowB : List (Char × Int) :=
  [('A', -6), ('T', -2), ('G', -2), ('C', -2), ('W', -4), ('S', -2), ('M', -4),
   ('K', -2), ('R', -4), ('Y', -2), ('B', -2), ('D', -3), ('H', -3), ('V', -3), ('N', -3)]

/-- Row `'D'` of the substitution score matrix `svals`. -/
def svalsRowD : List (Char × Int) :=
  [('A', -2), ('T', -2), ('G', -2), ('C', -6), ('W', -2), ('S', -4), ('M', -4),
   ('K', -2), ('R', -2), ('Y', -4), ('B', -3), ('D', -2), ('H', -3), ('V', -3), ('N', -3)]

/-- Row `'H'` of the substitution score matrix `svals`. -/
def svalsRowH : List (Char × Int) :=
  [('A', -2), ('T', -2), ('G', -6), ('C', -2), ('W', -2), ('S', -4), ('M', -2),
   ('K', -4), ('R', -4), ('Y', -2), ('B', -3), ('D', -3), ('H', -2), ('V', -3), ('N', -3)]

/-- Row `'V'` of the substitution score matrix `svals`. -/
def svalsRowV : List (Char × Int) :=
  [('A', -2), ('T', -6), ('G', -2), ('C', -2), ('W', -4), ('S', -2), ('M', -2),
   ('K', -4), ('R', -2), ('Y', -4), ('B', -3), ('D', -3), ('H', -3), ('V', -2), ('N', -3)]

/-- Row `'N'` of the substitution score matrix `svals`. -/
def svalsRowN : List (Char × Int) :=
  [('A', -3), ('T', -3), ('G', -3), ('C', -3), ('W', -3), ('S', -3), ('M', -3),
   ('K', -3), ('R', -3), ('Y', -3), ('B', -3), ('D', -3), ('H', -3), ('V', -3), ('N', -3)]

/-- The substitution score matrix `self.svals`: a dictionary from the
first symbol to a dictionary from the second symbol to the score. -/
def svals : List (Char × List (Char × Int)) :=
  [('A', svalsRowA), ('T', svalsRowT), ('G', svalsRowG), ('C', svalsRowC),
   ('W', svalsRowW), ('S', svalsRowS), ('M', svalsRowM), ('K', svalsRowK),
   ('R', svalsRowR), ('Y', svalsRowY), ('B', svalsRowB), ('D', svalsRowD),
   ('H', svalsRowH), ('V', svalsRowV), ('N', svalsRowN)]

/-- The double dictionary access `self.svals[c1][c2]`; `none` models a
`KeyError` on either level. -/
def svalsLookup (c1 c2 : Char) : Option Int := do
  let row ← svals.lookup c1
  row.lookup c2

/-- Freshly constructed `PairwiseAlignment` object (`__init__`): default
gap penalty `-6`, empty sequences, empty results, score `0`. -/
def initAlignment : PairwiseAlignment :=
  { gapp := -6, seq1 := [], seq2 := [], seq1aligned := [], seq2aligned := [],
    seq1indexed := [], seq2indexed := [], score := 0 }

/-- Method `setGapPenalty`. -/
def setGapPenalty (pa : PairwiseAlignment) (gap_penalty : Int) : PairwiseAlignment :=
  { pa with gapp := gap_penalty }

/-- Method `getGapPenalty`. -/
def getGapPenalty (pa : PairwiseAlignment) : Int :=
  pa.gapp

/-- Method `setSequences`: it assigns `self.seq1` and `self.seq2` and
touches no other field. -/
def setSequences (pa : PairwiseAlignment) (sequence1 sequence2 : List Char) : PairwiseAlignment :=
  { pa with seq1 := sequence1, seq2 := sequence2 }

/-- Method `getSequences`. -/
def getSequences (pa : PairwiseAlignment) : List Char × List Char :=
  (pa.seq1, pa.seq2)

/-- Method `getAlignedSequences`. -/
def getAlignedSequences (pa : PairwiseAlignment) : List Char × List Char :=
  (pa.seq1aligned, pa.seq2aligned)

/-- Method `getAlignedSeqIndexes`. -/
def getAlignedSeqIndexes (pa : PairwiseAlignment) : List Int × List Int :=
  (pa.seq1indexed, pa.seq2indexed)

/-- Method `getAlignmentScore`. -/
def getAlignmentScore (pa : PairwiseAlignment) : Int :=
  pa.score

/-- The `sup` candidate of the grid fill at row `i` of `n` rows:
`sup = scores[i][j-1] + self.gapp`, then `if i == seq1len: sup -= self.gapp`
(no penalty for the end gap in the last row). `prev` is `scores[i][j-1]`. -/
def supCand (gapp prev : Int) (i n : Nat) : Int :=
  let s := prev + gapp
  if i = n then s - gapp else s

/-- The `sleft` candidate of the grid fill at column `j` of `m` columns:
`sleft = scores[i-1][j] + self.gapp`, then `if j == seq2len: sleft -= self.gapp`
(no penalty for the end gap in the last column). `prev` is `scores[i-1][j]`. -/
def sleftCand (gapp prev : Int) (j m : Nat) : Int :=
  let s := prev + gapp
  if j = m then s - gapp else s

/-- Recording of the maximum subscore and its direction, from the
`if (sdiag >= sup) and (sdiag >= sleft) ... elif ... else` chain of the
grid fill: the result is the pair `(scores[i][j], tracebk[i][j])`. -/
def chooseCell (sdiag sup sleft : Int) : Int × Char :=
  if sdiag ≥ sup ∧ sdiag ≥ sleft then (sdiag, 'd')
  else if sup ≥ sdiag ∧ sup ≥ sleft then (sup, 'u')
  else (sleft, 'l')

/-- One row `i0 + 1` of the two matrices, given row `i0` as the function
`prev`.  Column `0` carries the initialization `scores[i][0] = 0`,
`tracebk[i][0] = 'l'`; column `j + 1` is the grid-fill computation with
`sdiag` from `prev j`, `sup` from the same row at `j`, and `sleft` from
`prev (j+1)`.  The sequence indices `s1[i0]` and `s2[j]` are the source's
`seq1[i-1]` and `seq2[j-1]`; they are always in range where the fill
evaluates them, so the `getD` default is never produced. -/
def cellRow (gapp : Int) (s1 s2 : List Char) (prev : Nat → Option (Int × Char))
    (i0 : Nat) : Nat → Option (Int × Char)
  | 0 => some (0, 'l')
  | j + 1 => do
      let pd ← prev j
      let pu ← cellRow gapp s1 s2 prev i0 j
      let pl ← prev (j + 1)
      let sub ← svalsLookup (s1.getD i0 'A') (s2.getD j 'A')
      pure (chooseCell (pd.1 + sub)
        (supCand gapp pu.1 (i0 + 1) s1.length)
        (sleftCand gapp pl.1 (j + 1) s2.length))

/-- The pair of matrices of `doAlignment`: `cell gapp s1 s2 i j` is
`some (scores[i][j], tracebk[i][j])`, and `none` when a `KeyError` occurs
while filling the part of the grid this cell depends on.  Row `0` and
column `0` keep their initialization values (`tracebk[0][0]` is left at
its never-read zero placeholder, rendered `'0'`). -/
def cell (gapp : Int) (s1 s2 : List Char) : Nat → Nat → Option (Int × Char)
  | 0, 0 => some (0, '0')
  | 0, _ + 1 => some (0, 'u')
  | i + 1, j => cellRow gapp s1 s2 (cell gapp s1 s2 i) i j

/-- Traceback walk along row `0`: every cell `(0, j+1)` has
`tracebk[0][j+1] = 'u'`, so each step appends the column
`('-', seq2[j], -1, j)`. -/
def walk0 (s2 : List Char) : Nat → TraceResult
  | 0 => ⟨[], [], [], []⟩
  | j + 1 =>
      let r := walk0 s2 j
      ⟨r.seq1a ++ ['-'], r.seq2a ++ [s2.getD j 'A'],
       r.seq1aindex ++ [-1], r.seq2aindex ++ [(j : Int)]⟩

/-- Traceback walk ending at cell `(i0 + 1, j)`, given the walk for row
`i0` as the function `lower`.  At `(i0 + 1, 0)` the mark is the
initialization value `'l'`, so the walk takes the left branch.  At
`(i0 + 1, j + 1)` the recorded mark selects the branch exactly as the
`if tracebk[i][j] == 'd' ... elif ... == 'u' ... else` chain of the
source's traceback loop. -/
def walkRow (gapp : Int) (s1 s2 : List Char) (lower : Nat → Option TraceResult)
    (i0 : Nat) : Nat → Option TraceResult
  | 0 => do
      let r ← lower 0
      pure ⟨r.seq1a ++ [s1.getD i0 'A'], r.seq2a ++ ['-'],
            r.seq1aindex ++ [(i0 : Int)], r.seq2aindex ++ [-1]⟩
  | j + 1 => do
      let c ← cell gapp s1 s2 (i0 + 1) (j + 1)
      if c.2 = 'd' then do
        let r ← lower j
        pure ⟨r.seq1a ++ [s1.getD i0 'A'], r.seq2a ++ [s2.getD j 'A'],
              r.seq1aindex ++ [(i0 : Int)], r.seq2aindex ++ [(j : Int)]⟩
      else if c.2 = 'u' then do
        let r ← walkRow gapp s1 s2 lower i0 j
        pure ⟨r.seq1a ++ ['-'], r.seq2a ++ [s2.getD j 'A'],
              r.seq1aindex ++ [-1], r.seq2aindex ++ [(j : Int)]⟩
      else do
        let r ← lower (j + 1)
        pure ⟨r.seq1a ++ [s1.getD i0 'A'], r.seq2a ++ ['-'],
              r.seq1aindex ++ [(i0 : Int)], r.seq2aindex ++ [-1]⟩

/-- Traceback walk from `(0, 0)` to `(i, j)`, producing the four result
lists in left-to-right order (the source appends while walking backward
and reverses at the end). -/
def walk (gapp : Int) (s1 s2 : List Char) : Nat → Nat → Option TraceResult
  | 0, j => some (walk0 s2 j)
  | i + 1, j => walkRow gapp s1 s2 (walk gapp s1 s2 i) i j

/-- The final gap-marking loop of `doAlignment` for one index list: a
counter starts at `-1`; a `-1` entry (a gap) is replaced by the current
counter value; a real entry decrements the counter.  The source runs one
loop over both lists with independent counters `seq1gv` and `seq2gv`,
which is the same as running this function on each list. -/
def markGaps (gv : Int) : List Int → List Int
  | [] => []
  | x :: rest => if x = -1 then gv :: markGaps gv rest else x :: markGaps (gv - 1) rest

/-- Method `doAlignment`: grid fill, score, traceback, list reversal and
gap marking.  `none` models a `KeyError` escaping the grid fill, in which
case the object is not updated (the caller keeps the old state). -/
def doAlignment (pa : PairwiseAlignment) : Option PairwiseAlignment := do
  let seq1len := pa.seq1.length
  let seq2len := pa.seq2.length
  let final ← cell pa.gapp pa.seq1 pa.seq2 seq1len seq2len
  let r ← walk pa.gapp pa.seq1 pa.seq2 seq1len seq2len
  pure { pa with
    score := final.1
    seq1aligned := r.seq1a
    seq2aligned := r.seq2a
    seq1indexed := markGaps (-1) r.seq1aindex
    seq2indexed := markGaps (-1) r.seq2aindex }

/-!
Unfolding equations for `cell` and `walk` at interior points, stated once
and reused by the proofs below.  All hold by `rfl` because `cell (i+1) j`
and `walkRow` over `walk i` are definitionally the row functions.
-/

/-- Interior grid-fill equation: the cell `(i+1, j+1)` is computed from
its three predecessors and the substitution score. -/
theorem cell_succ_succ (gapp : Int) (s1 s2 : List Char) (i j : Nat) :
    cell gapp s1 s2 (i + 1) (j + 1) =
      (cell gapp s1 s2 i j).bind (fun pd =>
        (cell gapp s1 s2 (i + 1) j).bind (fun pu =>
          (cell gapp s1 s2 i (j + 1)).bind (fun pl =>
            (svalsLookup (s1.getD i 'A') (s2.getD j 'A')).bind (fun sub =>
              some (chooseCell (pd.1 + sub)
                (supCand gapp pu.1 (i + 1) s1.length)
                (sleftCand gapp pl.1 (j + 1) s2.length)))))) := rfl

/-- Column `0` of a nonzero row carries the initialization values. -/
theorem cell_succ_zero (gapp : Int) (s1 s2 : List Char) (i : Nat) :
    cell gapp s1 s2 (i + 1) 0 = some (0, 'l') := rfl

/-- Row `0` at a nonzero column carries the initialization values. -/
theorem cell_zero_succ (gapp : Int) (s1 s2 : List Char) (j : Nat) :
    cell gapp s1 s2 0 (j + 1) = some (0, 'u') := rfl

/-- Walk equation at `(i+1, 0)`: the left branch is taken. -/
theorem walk_succ_zero (gapp : Int) (s1 s2 : List Char) (i : Nat) :
    walk gapp s1 s2 (i + 1) 0 =
      (walk gapp s1 s2 i 0).bind (fun r =>
        some (⟨r.seq1a ++ [s1.getD i 'A'], r.seq2a ++ ['-'],
              r.seq1aindex ++ [(i : Int)], r.seq2aindex ++ [-1]⟩ : TraceResult)) := rfl

/-- Walk equation at `(i+1, j+1)`: the branch is selected by the recorded
traceback mark. -/
theorem walk_succ_succ (gapp : Int) (s1 s2 : List Char) (i j : Nat) :
    walk gapp s1 s2 (i + 1) (j + 1) =
      (cell gapp s1 s2 (i + 1) (j + 1)).bind (fun c =>
        if c.2 = 'd' then
          (walk gapp s1 s2 i j).bind (fun r =>
            some (⟨r.seq1a ++ [s1.getD i 'A'], r.seq2a ++ [s2.getD j 'A'],
                  r.seq1aindex ++ [(i : Int)], r.seq2aindex ++ [(j : Int)]⟩ : TraceResult))
        else if c.2 = 'u' then
          (walk gapp s1 s2 (i + 1) j).bind (fun r =>
            some (⟨r.seq1a ++ ['-'], r.seq2a ++ [s2.getD j 'A'],
                  r.seq1aindex ++ [-1], r.seq2aindex ++ [(j : Int)]⟩ : TraceResult))
        else
          (walk gapp s1 s2 i (j + 1)).bind (fun r =>
            some (⟨r.seq1a ++ [s1.getD i 'A'], r.seq2a ++ ['-'],
                  r.seq1aindex ++ [(i : Int)], r.seq2aindex ++ [-1]⟩ : TraceResult))) := rfl

/-- Claim C1 as stated by the spec: at every in-range cell `(i, j)` the
`sup` candidate of the fill has the gap penalty waived exactly when
`j = m`, and the `sleft` candidate exactly when `i = n`.  `pu` and `pl`
are the matrix entries `scores[i][j-1]` and `scores[i-1][j]` the two
candidates are built from. -/
def claimEndGapWaiver : Prop :=
  ∀ (gapp : Int) (s1 s2 : List Char) (i j : Nat) (pu pl : Int × Char),
    1 ≤ i → i ≤ s1.length → 1 ≤ j → j ≤ s2.length →
    cell gapp s1 s2 i (j - 1) = some pu →
    cell gapp s1 s2 (i - 1) j = some pl →
    supCand gapp pu.1 i s1.length = pu.1 + gapp - (if j = s2.length then gapp else 0) ∧
    sleftCand gapp pl.1 j s2.length = pl.1 + gapp - (if i = s1.length then gapp else 0)

/-- C1 counterexample: with `seq1 = "AA"`, `seq2 = "A"`, gap penalty `-6`,
at cell `(1, 1)` we have `j = m = 1` but the `sup` candidate is
`scores[1][0] + gapp = -6`, not waived (the code waives `sup` on the last
row `i = n`, not on the last column `j = m`). -/
theorem C1_end_gap_waiver_counterexample : ¬ claimEndGapWaiver := by
  intro h
  have h1 := (h (-6) ['A', 'A'] ['A'] 1 1 (0, 'l') (0, 'u')
    (by decide) (by decide) (by decide) (by decide) rfl rfl).1
  exact absurd h1 (by decide)

/-- Claim C1 amended: the waiver conditions are the two the code uses,
swapped relative to the spec's sentence: the `sup` candidate
(`scores[i][j-1] + gapp`) has the penalty waived exactly when `i = n`
(last row), and the `sleft` candidate (`scores[i-1][j] + gapp`) exactly
when `j = m` (last column). -/
theorem C1_end_gap_waiver (gapp : Int) (s1 s2 : List Char) (i j : Nat) (pu pl : Int × Char)
    (_hi1 : 1 ≤ i) (_hi2 : i ≤ s1.length) (_hj1 : 1 ≤ j) (_hj2 : j ≤ s2.length)
    (_hpu : cell gapp s1 s2 i (j - 1) = some pu)
    (_hpl : cell gapp s1 s2 (i - 1) j = some pl) :
    supCand gapp pu.1 i s1.length = pu.1 + gapp - (if i = s1.length then gapp else 0) ∧
    sleftCand gapp pl.1 j s2.length = pl.1 + gapp - (if j = s2.length then gapp else 0) := by
  constructor
  · unfold supCand
    split_ifs <;> ring
  · unfold sleftCand
    split_ifs <;> ring

/-- Witness for the amended C1 at the concrete cell `(1, 1)` of the
alignment of `"A"` with `"A"`. -/
theorem C1_end_gap_waiver_witness :
    supCand (-6) 0 1 1 = 0 + (-6) - (if 1 = 1 then (-6 : Int) else 0) ∧
    sleftCand (-6) 0 1 1 = 0 + (-6) - (if 1 = 1 then (-6 : Int) else 0) :=
  C1_end_gap_waiver (-6) ['A'] ['A'] 1 1 (0, 'l') (0, 'u')
    (by decide) (by decide) (by decide) (by decide) rfl rfl

/-- C3: aligning `"ACGT"` against `"AGT"` with the default gap penalty
`-6` yields the aligned pair `"ACGT"` / `"A-GT"` and score `12`. -/
theorem C3_concrete_scenario :
    (doAlignment (setSequences initAlignment ['A', 'C', 'G', 'T'] ['A', 'G', 'T'])).map
        getAlignedSequences
      = some (['A', 'C', 'G', 'T'], ['A', '-', 'G', 'T']) ∧
    (doAlignment (setSequences initAlignment ['A', 'C', 'G', 'T'] ['A', 'G', 'T'])).map
        getAlignmentScore
      = some 12 := by
  constructor <;> rfl

/-- C4: the recorded score of a cell is the maximum of the three
candidates, the diagonal is recorded whenever it ties or beats both other
candidates, and up is recorded over left when those two tie and both
exceed the diagonal. -/
theorem C4_max_and_tiebreak (sdiag sup sleft : Int) :
    (chooseCell sdiag sup sleft).1 = max sdiag (max sup sleft) ∧
    (sdiag ≥ sup ∧ sdiag ≥ sleft → (chooseCell sdiag sup sleft).2 = 'd') ∧
    (sup = sleft ∧ sup > sdiag → (chooseCell sdiag sup sleft).2 = 'u') := by
  unfold chooseCell
  split_ifs with h1 h2
  · exact ⟨(max_eq_left (max_le h1.1 h1.2)).symm, fun _ => rfl,
      fun h => absurd h (by omega)⟩
  · refine ⟨?_, fun h => absurd h h1, fun _ => rfl⟩
    rw [max_eq_left h2.2, max_eq_right h2.1]
  · have h3 : sdiag ≤ sleft ∧ sup ≤ sleft := by omega
    refine ⟨by rw [max_eq_right h3.2, max_eq_right h3.1], fun h => absurd h h1,
      fun h => (h2 ⟨by omega, by omega⟩).elim⟩

/-- Claim C5 as stated by the spec: after `setSequences`, and before the
next `doAlignment`, the accessors no longer return the results of a
previous run (here: a run that produced a nonempty aligned sequence). -/
def claimSetSequencesResets : Prop :=
  ∀ (pa : PairwiseAlignment) (s1 s2 : List Char),
    pa.seq1aligned ≠ [] →
    getAlignedSequences (setSequences pa s1 s2) ≠ getAlignedSequences pa ∧
    getAlignedSeqIndexes (setSequences pa s1 s2) ≠ getAlignedSeqIndexes pa ∧
    getAlignmentScore (setSequences pa s1 s2) ≠ getAlignmentScore pa

/-- State of the aligner after running `doAlignment` on the inputs `"A"`
and `"A"`: aligned sequences `"A"` / `"A"`, index arrays `[0]` / `[0]`,
score `6`. -/
def c5run : PairwiseAlignment :=
  { gapp := -6, seq1 := ['A'], seq2 := ['A'], seq1aligned := ['A'],
    seq2aligned := ['A'], seq1indexed := [0], seq2indexed := [0], score := 6 }

/-- C5 counterexample: `c5run` is the state an actual run produces; after
`setSequences "T" "G"` every accessor still returns the old results,
because `setSequences` assigns only `seq1` and `seq2`. -/
theorem C5_setSequences_counterexample :
    doAlignment (setSequences initAlignment ['A'] ['A']) = some c5run ∧
    ¬ claimSetSequencesResets := by
  refine ⟨rfl, fun h => ?_⟩
  exact (h c5run ['T'] ['G'] (by decide)).1 rfl

/-- Claim C5 amended: `setSequences` stores the two input sequences and
does not recompute; it leaves every result field untouched, so the
accessors keep returning the previous run's aligned sequences, index
arrays and score until the next `doAlignment`. -/
theorem C5_setSequences_frame (pa : PairwiseAlignment) (s1 s2 : List Char) :
    (setSequences pa s1 s2).seq1 = s1 ∧
    (setSequences pa s1 s2).seq2 = s2 ∧
    getAlignedSequences (setSequences pa s1 s2) = getAlignedSequences pa ∧
    getAlignedSeqIndexes (setSequences pa s1 s2) = getAlignedSeqIndexes pa ∧
    getAlignmentScore (setSequences pa s1 s2) = getAlignmentScore pa :=
  ⟨rfl, rfl, rfl, rfl, rfl⟩

/-- C6: `doAlignment` on a freshly constructed object succeeds, treats
both sequences as empty, and produces empty aligned sequences, empty
index arrays, and score `0` (in fact it reproduces the initial state). -/
theorem C6_fresh_doAlignment :
    doAlignment initAlignment = some initAlignment ∧
    (doAlignment initAlignment).map getAlignedSequences = some ([], []) ∧
    (doAlignment initAlignment).map getAlignedSeqIndexes = some ([], []) ∧
    (doAlignment initAlignment).map getAlignmentScore = some 0 := by
  refine ⟨rfl, rfl, rfl, rfl⟩

/-- C8: with `seq1 = ""` and `seq2 = "ACGT"`, the fill loop never runs,
the score stays `0`, every traceback mark on row `0` is an up move, and
the result is `"----"` aligned against `"ACGT"`. -/
theorem C8_empty_seq1 :
    (doAlignment (setSequences initAlignment [] ['A', 'C', 'G', 'T'])).map
        getAlignedSequences
      = some (['-', '-', '-', '-'], ['A', 'C', 'G', 'T']) ∧
    (doAlignment (setSequences initAlignment [] ['A', 'C', 'G', 'T'])).map
        getAlignmentScore
      = some 0 ∧
    (cell (-6) [] ['A', 'C', 'G', 'T'] 0 1).map Prod.snd = some 'u' ∧
    (cell (-6) [] ['A', 'C', 'G', 'T'] 0 2).map Prod.snd = some 'u' ∧
    (cell (-6) [] ['A', 'C', 'G', 'T'] 0 3).map Prod.snd = some 'u' ∧
    (cell (-6) [] ['A', 'C', 'G', 'T'] 0 4).map Prod.snd = some 'u' := by
  refine ⟨rfl, rfl, rfl, rfl, rfl, rfl⟩

/-- Unfolding of `doAlignment` with explicit `Option.bind`. -/
theorem doAlignment_eq (pa : PairwiseAlignment) :
    doAlignment pa =
      (cell pa.gapp pa.seq1 pa.seq2 pa.seq1.length pa.seq2.length).bind (fun final =>
        (walk pa.gapp pa.seq1 pa.seq2 pa.seq1.length pa.seq2.length).bind (fun r =>
          some { pa with
            score := final.1
            seq1aligned := r.seq1a
            seq2aligned := r.seq2a
            seq1indexed := markGaps (-1) r.seq1aindex
            seq2indexed := markGaps (-1) r.seq2aindex })) := rfl

/-- Lookup in an association list succeeds exactly on its key list. -/
theorem lookup_isSome_iff {β : Type} (l : List (Char × β)) (a : Char) :
    (l.lookup a).isSome = true ↔ a ∈ l.map Prod.fst := by
  induction l with
  | nil => simp [List.lookup]
  | cons p t ih =>
    obtain ⟨k, v⟩ := p
    by_cases hk : a = k
    · subst hk
      simp [List.lookup]
    · have hb : (a == k) = false := beq_eq_false_iff_ne.mpr hk
      simp [List.lookup, hb, ih, hk]

/-- A successful association-list lookup returns a stored pair. -/
theorem lookup_eq_some_mem {β : Type} (l : List (Char × β)) (a : Char) (b : β)
    (h : l.lookup a = some b) : (a, b) ∈ l := by
  induction l with
  | nil => simp [List.lookup] at h
  | cons p t ih =>
    obtain ⟨k, v⟩ := p
    by_cases hk : a = k
    · subst hk
      simp [List.lookup] at h
      simp [h]
    · have hb : (a == k) = false := beq_eq_false_iff_ne.mpr hk
      simp [List.lookup, hb] at h
      simp [ih h]

/-- Every row of the substitution matrix has the same key list as the
outer dictionary: the table is total over its 15-symbol alphabet. -/
theorem svals_rows_keys : ∀ p ∈ svals, p.2.map Prod.fst = svals.map Prod.fst := by decide

/-- Gap marking never turns a gap into a nonnegative index: a nonnegative
entry of the marked list was already present, unchanged, in the raw
list. -/
theorem markGaps_get_nonneg :
    ∀ (l : List Int) (gv : Int) (col : Nat) (k : Int), gv ≤ -1 →
      (markGaps gv l).get? col = some k → 0 ≤ k → l.get? col = some k := by
  intro l
  induction l with
  | nil => intro gv col k _ h _; simp [markGaps] at h
  | cons x t ih =>
    intro gv col k hgv h hk
    by_cases hx : x = -1
    · simp only [markGaps, if_pos hx] at h
      cases col with
      | zero => simp at h; omega
      | succ n =>
        simp only [List.get?_cons_succ] at h ⊢
        exact ih gv n k hgv h hk
    · simp only [markGaps, if_neg hx] at h
      cases col with
      | zero => simpa using h
      | succ n =>
        simp only [List.get?_cons_succ] at h ⊢
        exact ih (gv - 1) n k (by omega) h hk

/-- Gap marking preserves the sublist of nonnegative entries. -/
theorem markGaps_filter_nonneg (l : List Int) :
    ∀ gv : Int, gv ≤ -1 →
      (markGaps gv l).filter (fun v => decide (0 ≤ v)) =
        l.filter (fun v => decide (0 ≤ v)) := by
  induction l with
  | nil => intro gv _; rfl
  | cons x t ih =>
    intro gv hgv
    by_cases hx : x = -1
    · simp only [markGaps, if_pos hx, List.filter_cons]
      have h1 : ¬ (0 : Int) ≤ gv := by omega
      have h2 : ¬ (0 : Int) ≤ x := by omega
      simp [h1, h2, ih gv hgv]
    · simp only [markGaps, if_neg hx, List.filter_cons]
      rw [ih (gv - 1) (by omega)]

/-- A negative head of a marked list is the current counter value,
provided the raw entries are all at least `-1`. -/
theorem markGaps_head_neg (t : List Int) (gv b : Int) (hmem : ∀ x ∈ t, -1 ≤ x)
    (h : (markGaps gv t).get? 0 = some b) (hneg : b < 0) : b = gv := by
  cases t with
  | nil => simp [markGaps] at h
  | cons x ts =>
    by_cases hx : x = -1
    · simp [markGaps, hx] at h
      omega
    · simp [markGaps, hx] at h
      have := hmem x (by simp)
      omega

/-- In a marked index list whose raw entries are all at least `-1`, two
consecutive negative entries are equal: a run of gaps shares one sentinel
value, the one recording the next real index. -/
theorem markGaps_consec_neg_eq :
    ∀ (l : List Int) (gv : Int) (cnt : Nat) (a b : Int),
      (∀ x ∈ l, -1 ≤ x) → gv ≤ -1 →
      (markGaps gv l).get? cnt = some a →
      (markGaps gv l).get? (cnt + 1) = some b →
      a < 0 → b < 0 → a = b := by
  intro l
  induction l with
  | nil => intro gv cnt a b _ _ ha _ _ _; simp [markGaps] at ha
  | cons x t ih =>
    intro gv cnt a b hmem hgv ha hb hna hnb
    have hmem' : ∀ y ∈ t, -1 ≤ y := fun y hy => hmem y (by simp [hy])
    by_cases hx : x = -1
    · simp only [markGaps, if_pos hx] at ha hb
      cases cnt with
      | zero =>
        simp only [List.get?_cons_zero, Option.some.injEq] at ha
        simp only [List.get?_cons_succ] at hb
        have := markGaps_head_neg t gv b hmem' hb hnb
        omega
      | succ n =>
        simp only [List.get?_cons_succ] at ha hb
        exact ih gv n a b hmem' hgv ha hb hna hnb
    · simp only [markGaps, if_neg hx] at ha hb
      cases cnt with
      | zero =>
        simp only [List.get?_cons_zero, Option.some.injEq] at ha
        have := hmem x (by simp)
        omega
      | succ n =>
        simp only [List.get?_cons_succ] at ha hb
        exact ih (gv - 1) n a b hmem' (by omega) ha hb hna hnb

/-- Invariant of one sequence's pair of result lists after walking a
traceback prefix that consumed the first `cnt` bases of the source
sequence `s`: the lists have equal length, the nonnegative entries of the
index list are exactly `0, 1, ..., cnt - 1` in order, every entry is at
least `-1`, and a column holding a nonnegative index `k` shows the source
symbol `s[k]`. -/
def SeqInv (s : List Char) (cnt : Nat) (a : List Char) (x : List Int) : Prop :=
  x.length = a.length ∧
  x.filter (fun v => decide (0 ≤ v)) = (List.range cnt).map Int.ofNat ∧
  (∀ v ∈ x, -1 ≤ v) ∧
  (∀ (col : Nat) (k : Int), x.get? col = some k → 0 ≤ k → a.get? col = s.get? k.toNat)

/-- The empty result satisfies the invariant with no bases consumed. -/
theorem seqInv_nil (s : List Char) : SeqInv s 0 [] [] := by
  refine ⟨rfl, by simp, by simp, ?_⟩
  intro col k hk _
  simp at hk

/-- Appending the real column `(s[cnt], cnt)` advances the invariant by
one consumed base. -/
theorem seqInv_append_real (s : List Char) (cnt : Nat) (a : List Char) (x : List Int)
    (h : SeqInv s cnt a x) (hcnt : cnt < s.length) :
    SeqInv s (cnt + 1) (a ++ [s.getD cnt 'A']) (x ++ [(cnt : Int)]) := by
  obtain ⟨hlen, hfil, hmem, hrt⟩ := h
  have hget : s.get? cnt = some (s.getD cnt 'A') := by
    rw [List.getD_eq_get?, List.get?_eq_get hcnt]
    rfl
  refine ⟨by simp [hlen], ?_, ?_, ?_⟩
  · rw [List.filter_append, hfil, List.range_succ]
    simp
  · intro v hv
    rcases List.mem_append.mp hv with hv | hv
    · exact hmem v hv
    · simp at hv
      omega
  · intro col k hk hk0
    rcases lt_trichotomy col x.length with hcol | hcol | hcol
    · rw [List.get?_append hcol] at hk
      rw [List.get?_append (hlen ▸ hcol)]
      exact hrt col k hk hk0
    · subst hcol
      rw [List.get?_concat_length] at hk
      injection hk with hk
      subst hk
      rw [hlen, List.get?_concat_length, Int.toNat_ofNat, hget]
    · rw [List.get?_eq_none.mpr (by simp; omega)] at hk
      cases hk

/-- Appending the gap column `('-', -1)` preserves the invariant. -/
theorem seqInv_append_gap (s : List Char) (cnt : Nat) (a : List Char) (x : List Int)
    (h : SeqInv s cnt a x) :
    SeqInv s cnt (a ++ ['-']) (x ++ [-1]) := by
  obtain ⟨hlen, hfil, hmem, hrt⟩ := h
  refine ⟨by simp [hlen], ?_, ?_, ?_⟩
  · rw [List.filter_append, hfil]
    simp
  · intro v hv
    rcases List.mem_append.mp hv with hv | hv
    · exact hmem v hv
    · simp at hv
      omega
  · intro col k hk hk0
    rcases lt_trichotomy col x.length with hcol | hcol | hcol
    · rw [List.get?_append hcol] at hk
      rw [List.get?_append (hlen ▸ hcol)]
      exact hrt col k hk hk0
    · subst hcol
      rw [List.get?_concat_length] at hk
      injection hk with hk
      omega
    · rw [List.get?_eq_none.mpr (by simp; omega)] at hk
      cases hk

/-- Invariant of the whole traceback walk from `(0, 0)` to `(i, j)`: the
aligned lists have equal length and each sequence's lists satisfy
`SeqInv` for its consumed prefix. -/
def WalkInv (s1 s2 : List Char) (i j : Nat) (r : TraceResult) : Prop :=
  r.seq1a.length = r.seq2a.length ∧
  SeqInv s1 i r.seq1a r.seq1aindex ∧
  SeqInv s2 j r.seq2a r.seq2aindex

/-- The row-`0` walk satisfies the invariant: it consumes no base of
sequence 1 and the first `j` bases of sequence 2. -/
theorem walk0_inv (s1 s2 : List Char) :
    ∀ j, j ≤ s2.length → WalkInv s1 s2 0 j (walk0 s2 j) := by
  intro j
  induction j with
  | zero => intro _; exact ⟨rfl, seqInv_nil s1, seqInv_nil s2⟩
  | succ n ih =>
    intro hj
    have hw := ih (by omega)
    exact ⟨by simpa [walk0] using hw.1,
      seqInv_append_gap _ _ _ _ hw.2.1,
      seqInv_append_real _ _ _ _ hw.2.2 (by omega)⟩

/-- Every successful traceback walk to an in-range cell satisfies the
invariant. -/
theorem walk_inv (gapp : Int) (s1 s2 : List Char) :
    ∀ i, i ≤ s1.length → ∀ j, ∀ r, j ≤ s2.length →
      walk gapp s1 s2 i j = some r → WalkInv s1 s2 i j r := by
  intro i
  induction i with
  | zero =>
    intro _ j r hj hw
    have hr : walk0 s2 j = r := by
      have : walk gapp s1 s2 0 j = some (walk0 s2 j) := rfl
      rw [this] at hw
      injection hw
    exact hr ▸ walk0_inv s1 s2 j hj
  | succ i ih =>
    intro hi j
    induction j with
    | zero =>
      intro r hj hw
      rw [walk_succ_zero, Option.bind_eq_some] at hw
      obtain ⟨r0, hr0, hpure⟩ := hw
      injection hpure with hpure
      subst hpure
      have hw0 := ih (by omega) 0 r0 (by omega) hr0
      exact ⟨by simp [hw0.1],
        seqInv_append_real _ _ _ _ hw0.2.1 (by omega),
        seqInv_append_gap _ _ _ _ hw0.2.2⟩
    | succ n ihn =>
      intro r hj hw
      rw [walk_succ_succ, Option.bind_eq_some] at hw
      obtain ⟨c, _, hw⟩ := hw
      split_ifs at hw
      · rw [Option.bind_eq_some] at hw
        obtain ⟨r0, hr0, hpure⟩ := hw
        injection hpure with hpure
        subst hpure
        have hw0 := ih (by omega) n r0 (by omega) hr0
        exact ⟨by simp [hw0.1],
          seqInv_append_real _ _ _ _ hw0.2.1 (by omega),
          seqInv_append_real _ _ _ _ hw0.2.2 (by omega)⟩
      · rw [Option.bind_eq_some] at hw
        obtain ⟨r0, hr0, hpure⟩ := hw
        injection hpure with hpure
        subst hpure
        have hw0 := ihn r0 (by omega) hr0
        exact ⟨by simp [hw0.1],
          seqInv_append_gap _ _ _ _ hw0.2.1,
          seqInv_append_real _ _ _ _ hw0.2.2 (by omega)⟩
      · rw [Option.bind_eq_some] at hw
        obtain ⟨r0, hr0, hpure⟩ := hw
        injection hpure with hpure
        subst hpure
        have hw0 := ih (by omega) (n + 1) r0 (by omega) hr0
        exact ⟨by simp [hw0.1],
          seqInv_append_real _ _ _ _ hw0.2.1 (by omega),
          seqInv_append_gap _ _ _ _ hw0.2.2⟩

/-- Destructuring of a successful `doAlignment` run into its grid-fill
result and traceback result. -/
theorem doAlignment_some_elim (pa pa' : PairwiseAlignment) (h : doAlignment pa = some pa') :
    ∃ final r,
      cell pa.gapp pa.seq1 pa.seq2 pa.seq1.length pa.seq2.length = some final ∧
      walk pa.gapp pa.seq1 pa.seq2 pa.seq1.length pa.seq2.length = some r ∧
      pa' = { pa with
        score := final.1
        seq1aligned := r.seq1a
        seq2aligned := r.seq2a
        seq1indexed := markGaps (-1) r.seq1aindex
        seq2indexed := markGaps (-1) r.seq2aindex } := by
  rw [doAlignment_eq, Option.bind_eq_some] at h
  obtain ⟨final, hf, h⟩ := h
  rw [Option.bind_eq_some] at h
  obtain ⟨r, hr, h⟩ := h
  injection h with h
  exact ⟨final, r, hf, hr, h.symm⟩

/-- Claim C2 as stated by the spec: after `doAlignment`, consecutive gap
sentinels (negative entries) in one index array are strictly decreasing
left to right. -/
def claimGapSentinelDecreasing : Prop :=
  ∀ (pa pa' : PairwiseAlignment), doAlignment pa = some pa' →
    (∀ (cnt : Nat) (a b : Int),
      pa'.seq1indexed.get? cnt = some a → pa'.seq1indexed.get? (cnt + 1) = some b →
      a < 0 → b < 0 → b < a) ∧
    (∀ (cnt : Nat) (a b : Int),
      pa'.seq2indexed.get? cnt = some a → pa'.seq2indexed.get? (cnt + 1) = some b →
      a < 0 → b < 0 → b < a)

/-- State of the aligner after running `doAlignment` on `"A"` and
`"ATT"`: the two trailing gaps of sequence 1 both receive the sentinel
`-2`. -/
def c2run : PairwiseAlignment :=
  { gapp := -6, seq1 := ['A'], seq2 := ['A', 'T', 'T'], seq1aligned := ['A', '-', '-'],
    seq2aligned := ['A', 'T', 'T'], seq1indexed := [0, -2, -2],
    seq2indexed := [0, 1, 2], score := 6 }

/-- C2 counterexample: aligning `"A"` with `"ATT"` produces the index
array `[0, -2, -2]` for sequence 1 — the two consecutive gap sentinels
are equal, not strictly decreasing (the gap-marking loop decrements its
counter only when passing a real base, not when filling a gap). -/
theorem C2_gap_sentinel_counterexample :
    doAlignment (setSequences initAlignment ['A'] ['A', 'T', 'T']) = some c2run ∧
    ¬ claimGapSentinelDecreasing := by
  refine ⟨rfl, fun h => ?_⟩
  have h1 := (h (setSequences initAlignment ['A'] ['A', 'T', 'T']) c2run rfl).1
    1 (-2) (-2) rfl rfl (by decide) (by decide)
  exact absurd h1 (by decide)

/-- Claim C2 amended: within a run of consecutive gaps for one sequence
the sentinel values are all equal (each records the same next real index
as `-(k+1)`); they are not strictly decreasing. -/
theorem C2_gap_sentinels_equal (pa pa' : PairwiseAlignment) (h : doAlignment pa = some pa') :
    (∀ (cnt : Nat) (a b : Int),
      pa'.seq1indexed.get? cnt = some a → pa'.seq1indexed.get? (cnt + 1) = some b →
      a < 0 → b < 0 → a = b) ∧
    (∀ (cnt : Nat) (a b : Int),
      pa'.seq2indexed.get? cnt = some a → pa'.seq2indexed.get? (cnt + 1) = some b →
      a < 0 → b < 0 → a = b) := by
  obtain ⟨final, r, _, hr, hpa⟩ := doAlignment_some_elim pa pa' h
  subst hpa
  have hinv := walk_inv pa.gapp pa.seq1 pa.seq2
    pa.seq1.length (le_refl _) pa.seq2.length r (le_refl _) hr
  constructor
  · intro cnt a b ha hb hna hnb
    exact markGaps_consec_neg_eq r.seq1aindex (-1) cnt a b
      hinv.2.1.2.2.1 (by omega) ha hb hna hnb
  · intro cnt a b ha hb hna hnb
    exact markGaps_consec_neg_eq r.seq2aindex (-1) cnt a b
      hinv.2.2.2.2.1 (by omega) ha hb hna hnb

/-- Witness for the amended C2 at the concrete run of `"A"` against
`"ATT"`: the two adjacent gap sentinels at columns 1 and 2 are equal. -/
theorem C2_gap_sentinels_equal_witness :
    c2run.seq1indexed.get? 1 = some (-2) ∧
    c2run.seq1indexed.get? 2 = some (-2) ∧
    (-2 : Int) = -2 :=
  ⟨rfl, rfl,
    (C2_gap_sentinels_equal (setSequences initAlignment ['A'] ['A', 'T', 'T']) c2run rfl).1
      1 (-2) (-2) rfl rfl (by decide) (by decide)⟩

/-- C9: after `doAlignment`, every aligned column whose index-array entry
is a nonnegative `k` shows the source symbol at position `k` of the
corresponding input sequence. -/
theorem C9_index_roundtrip (pa pa' : PairwiseAlignment) (h : doAlignment pa = some pa') :
    (∀ (col : Nat) (k : Int),
      pa'.seq1indexed.get? col = some k → 0 ≤ k →
      pa'.seq1aligned.get? col = pa.seq1.get? k.toNat) ∧
    (∀ (col : Nat) (k : Int),
      pa'.seq2indexed.get? col = some k → 0 ≤ k →
      pa'.seq2aligned.get? col = pa.seq2.get? k.toNat) := by
  obtain ⟨final, r, _, hr, hpa⟩ := doAlignment_some_elim pa pa' h
  subst hpa
  have hinv := walk_inv pa.gapp pa.seq1 pa.seq2
    pa.seq1.length (le_refl _) pa.seq2.length r (le_refl _) hr
  constructor
  · intro col k hk hk0
    have hraw := markGaps_get_nonneg r.seq1aindex (-1) col k (by omega) hk hk0
    exact hinv.2.1.2.2.2 col k hraw hk0
  · intro col k hk hk0
    have hraw := markGaps_get_nonneg r.seq2aindex (-1) col k (by omega) hk hk0
    exact hinv.2.2.2.2.2 col k hraw hk0

/-- State of the aligner after running `doAlignment` on `"ACGT"` and
`"AGT"` with the default gap penalty. -/
def c9run : PairwiseAlignment :=
  { gapp := -6, seq1 := ['A', 'C', 'G', 'T'], seq2 := ['A', 'G', 'T'],
    seq1aligned := ['A', 'C', 'G', 'T'], seq2aligned := ['A', '-', 'G', 'T'],
    seq1indexed := [0, 1, 2, 3], seq2indexed := [0, -2, 1, 2], score := 12 }

/-- Witness for C9 at the concrete run of `"ACGT"` against `"AGT"`:
column 2 of sequence 2 carries index `1` and shows `seq2[1] = 'G'`. -/
theorem C9_index_roundtrip_witness :
    c9run.seq2indexed.get? 2 = some 1 ∧
    c9run.seq2aligned.get? 2 = (['A', 'G', 'T'] : List Char).get? (1 : Int).toNat :=
  ⟨rfl,
    (C9_index_roundtrip (setSequences initAlignment ['A', 'C', 'G', 'T'] ['A', 'G', 'T'])
      c9run rfl).2 2 1 rfl (by decide)⟩

/-- A substitution lookup succeeds when both symbols are keys of the
outer dictionary (every row has the same keys). -/
theorem svalsLookup_isSome (c1 c2 : Char)
    (h1 : (svals.lookup c1).isSome = true) (h2 : (svals.lookup c2).isSome = true) :
    (svalsLookup c1 c2).isSome = true := by
  obtain ⟨row, hrow⟩ := Option.isSome_iff_exists.mp h1
  have hkeys := svals_rows_keys (c1, row) (lookup_eq_some_mem svals c1 row hrow)
  have hc2 : c2 ∈ row.map Prod.fst := by
    rw [hkeys]
    exact (lookup_isSome_iff svals c2).mp h2
  obtain ⟨v, hv⟩ := Option.isSome_iff_exists.mp ((lookup_isSome_iff row c2).mpr hc2)
  simp [svalsLookup, hrow, hv]

/-- A lookup with an unknown first symbol fails. -/
theorem svalsLookup_none_left (c1 c2 : Char) (h : svals.lookup c1 = none) :
    svalsLookup c1 c2 = none := by
  simp [svalsLookup, h]

/-- A lookup with an unknown second symbol fails, for every first symbol:
no row of the table has the unknown symbol among its keys. -/
theorem svalsLookup_none_right (c1 c2 : Char) (h : svals.lookup c2 = none) :
    svalsLookup c1 c2 = none := by
  cases hrow : svals.lookup c1 with
  | none => simp [svalsLookup, hrow]
  | some row =>
    have hkeys := svals_rows_keys (c1, row) (lookup_eq_some_mem svals c1 row hrow)
    have hnk : ¬ c2 ∈ row.map Prod.fst := by
      rw [hkeys]
      intro hc
      have := (lookup_isSome_iff svals c2).mpr hc
      simp [h] at this
    have hnone : row.lookup c2 = none := by
      cases hlk : row.lookup c2 with
      | none => rfl
      | some v => exact absurd ((lookup_isSome_iff row c2).mp (by simp [hlk])) hnk
    simp [svalsLookup, hrow, hnone]

/-- A symbol read from a sequence by the fill is a member of that
sequence. -/
theorem getD_mem (s : List Char) (i : Nat) (h : i < s.length) : s.getD i 'A' ∈ s := by
  rw [List.getD_eq_get?, List.get?_eq_get h]
  exact List.get_mem s i h

/-- The grid fill succeeds at every in-range cell when every symbol of
both sequences is a key of the substitution table. -/
theorem cell_isSome (gapp : Int) (s1 s2 : List Char)
    (h1 : ∀ c ∈ s1, (svals.lookup c).isSome = true)
    (h2 : ∀ c ∈ s2, (svals.lookup c).isSome = true) :
    ∀ i, i ≤ s1.length → ∀ j, j ≤ s2.length → (cell gapp s1 s2 i j).isSome = true := by
  intro i
  induction i with
  | zero =>
    intro _ j _
    cases j with
    | zero => rfl
    | succ n => rfl
  | succ i ih =>
    intro hi j
    induction j with
    | zero => intro _; rfl
    | succ n ihn =>
      intro hj
      rw [cell_succ_succ]
      obtain ⟨pd, hpd⟩ := Option.isSome_iff_exists.mp (ih (by omega) n (by omega))
      obtain ⟨pu, hpu⟩ := Option.isSome_iff_exists.mp (ihn (by omega))
      obtain ⟨pl, hpl⟩ := Option.isSome_iff_exists.mp (ih (by omega) (n + 1) hj)
      have hsub := svalsLookup_isSome _ _
        (h1 _ (getD_mem s1 i (by omega))) (h2 _ (getD_mem s2 n (by omega)))
      obtain ⟨sub, hsubv⟩ := Option.isSome_iff_exists.mp hsub
      simp only [hpd, hpu, hpl, hsubv, Option.some_bind, Option.isSome_some]

/-- The traceback walk succeeds at every in-range cell when every symbol
of both sequences is a key of the substitution table. -/
theorem walk_isSome (gapp : Int) (s1 s2 : List Char)
    (h1 : ∀ c ∈ s1, (svals.lookup c).isSome = true)
    (h2 : ∀ c ∈ s2, (svals.lookup c).isSome = true) :
    ∀ i, i ≤ s1.length → ∀ j, j ≤ s2.length → (walk gapp s1 s2 i j).isSome = true := by
  intro i
  induction i with
  | zero => intro _ j _; rfl
  | succ i ih =>
    intro hi j
    induction j with
    | zero =>
      intro hj
      rw [walk_succ_zero]
      obtain ⟨r0, hr0⟩ := Option.isSome_iff_exists.mp (ih (by omega) 0 (by omega))
      simp [hr0]
    | succ n ihn =>
      intro hj
      rw [walk_succ_succ]
      obtain ⟨c, hc⟩ :=
        Option.isSome_iff_exists.mp (cell_isSome gapp s1 s2 h1 h2 (i + 1) hi (n + 1) hj)
      obtain ⟨rd, hrd⟩ := Option.isSome_iff_exists.mp (ih (by omega) n (by omega))
      obtain ⟨ru, hru⟩ := Option.isSome_iff_exists.mp (ihn (by omega))
      obtain ⟨rl, hrl⟩ := Option.isSome_iff_exists.mp (ih (by omega) (n + 1) hj)
      rw [hc]
      simp only [Option.some_bind]
      split_ifs
      · simp [hrd]
      · simp [hru]
      · simp [hrl]

/-- C10: for input sequences drawn from the score table's alphabet,
`doAlignment` succeeds, the two aligned sequences have equal length, and
the nonnegative entries of each index array, read left to right, are
exactly `0, 1, ..., len - 1`: every source base occupies exactly one
aligned column, in source order. -/
theorem C10_alignment_partition (s1 s2 : List Char)
    (h1 : ∀ c ∈ s1, (svals.lookup c).isSome = true)
    (h2 : ∀ c ∈ s2, (svals.lookup c).isSome = true) :
    (doAlignment (setSequences initAlignment s1 s2)).isSome = true ∧
    ((doAlignment (setSequences initAlignment s1 s2)).map fun pa' => pa'.seq1aligned.length)
      = ((doAlignment (setSequences initAlignment s1 s2)).map fun pa' => pa'.seq2aligned.length) ∧
    ((doAlignment (setSequences initAlignment s1 s2)).map fun pa' =>
        pa'.seq1indexed.filter (fun v => decide (0 ≤ v)))
      = some ((List.range s1.length).map Int.ofNat) ∧
    ((doAlignment (setSequences initAlignment s1 s2)).map fun pa' =>
        pa'.seq2indexed.filter (fun v => decide (0 ≤ v)))
      = some ((List.range s2.length).map Int.ofNat) := by
  obtain ⟨final, hf⟩ := Option.isSome_iff_exists.mp
    (cell_isSome (-6) s1 s2 h1 h2 s1.length (le_refl _) s2.length (le_refl _))
  obtain ⟨r, hr⟩ := Option.isSome_iff_exists.mp
    (walk_isSome (-6) s1 s2 h1 h2 s1.length (le_refl _) s2.length (le_refl _))
  have hinv := walk_inv (-6) s1 s2 s1.length (le_refl _) s2.length r (le_refl _) hr
  have hda : doAlignment (setSequences initAlignment s1 s2) =
      some { setSequences initAlignment s1 s2 with
        score := final.1
        seq1aligned := r.seq1a
        seq2aligned := r.seq2a
        seq1indexed := markGaps (-1) r.seq1aindex
        seq2indexed := markGaps (-1) r.seq2aindex } := by
    rw [doAlignment_eq]
    rw [show cell (setSequences initAlignment s1 s2).gapp (setSequences initAlignment s1 s2).seq1
        (setSequences initAlignment s1 s2).seq2 (setSequences initAlignment s1 s2).seq1.length
        (setSequences initAlignment s1 s2).seq2.length = some final from hf]
    rw [Option.some_bind]
    rw [show walk (setSequences initAlignment s1 s2).gapp (setSequences initAlignment s1 s2).seq1
        (setSequences initAlignment s1 s2).seq2 (setSequences initAlignment s1 s2).seq1.length
        (setSequences initAlignment s1 s2).seq2.length = some r from hr]
    rw [Option.some_bind]
  rw [hda]
  refine ⟨rfl, ?_, ?_, ?_⟩
  · simp only [Option.map_some']
    rw [hinv.1]
  · simp only [Option.map_some']
    rw [markGaps_filter_nonneg r.seq1aindex (-1) (by omega), hinv.2.1.2.1]
  · simp only [Option.map_some']
    rw [markGaps_filter_nonneg r.seq2aindex (-1) (by omega), hinv.2.2.2.1]

/-- Witness for C10 at the concrete pair `"ACGT"` / `"AGT"`. -/
theorem C10_alignment_partition_witness :
    (doAlignment (setSequences initAlignment ['A', 'C', 'G', 'T'] ['A', 'G', 'T'])).isSome
        = true ∧
    ((doAlignment (setSequences initAlignment ['A', 'C', 'G', 'T'] ['A', 'G', 'T'])).map
        fun pa' => pa'.seq1aligned.length)
      = ((doAlignment (setSequences initAlignment ['A', 'C', 'G', 'T'] ['A', 'G', 'T'])).map
        fun pa' => pa'.seq2aligned.length) ∧
    ((doAlignment (setSequences initAlignment ['A', 'C', 'G', 'T'] ['A', 'G', 'T'])).map
        fun pa' => pa'.seq1indexed.filter (fun v => decide (0 ≤ v)))
      = some ((List.range (List.length ['A', 'C', 'G', 'T'])).map Int.ofNat) ∧
    ((doAlignment (setSequences initAlignment ['A', 'C', 'G', 'T'] ['A', 'G', 'T'])).map
        fun pa' => pa'.seq2indexed.filter (fun v => decide (0 ≤ v)))
      = some ((List.range (List.length ['A', 'G', 'T'])).map Int.ofNat) :=
  C10_alignment_partition ['A', 'C', 'G', 'T'] ['A', 'G', 'T'] (by decide) (by decide)

/-- If position `k` of sequence 1 holds a symbol whose substitution
lookups all fail, every cell at row `k + 1` or below and column at least
`1` fails: the failure reaches the cell either directly through its own
lookup or through the cells it depends on. -/
theorem cell_none_bad1 (gapp : Int) (s1 s2 : List Char) (k : Nat)
    (hbad : ∀ c2, svalsLookup (s1.getD k 'A') c2 = none) :
    ∀ i, k + 1 ≤ i → ∀ j, 1 ≤ j → cell gapp s1 s2 i j = none := by
  intro i
  induction i with
  | zero => intro hi; exact absurd hi (by omega)
  | succ i ih =>
    intro hi j hj
    cases j with
    | zero => exact absurd hj (by omega)
    | succ n =>
      rw [cell_succ_succ]
      by_cases hik : i = k
      · subst hik
        cases hpd : cell gapp s1 s2 i n with
        | none => simp only [hpd, Option.none_bind]
        | some pd =>
          cases hpu : cell gapp s1 s2 (i + 1) n with
          | none => simp only [hpd, hpu, Option.some_bind, Option.none_bind]
          | some pu =>
            cases hpl : cell gapp s1 s2 i (n + 1) with
            | none => simp only [hpd, hpu, hpl, Option.some_bind, Option.none_bind]
            | some pl =>
              simp only [hpd, hpu, hpl, Option.some_bind, hbad (s2.getD n 'A'),
                Option.none_bind]
      · have hpl := ih (by omega) (n + 1) (by omega)
        cases hpd : cell gapp s1 s2 i n with
        | none => simp only [hpd, Option.none_bind]
        | some pd =>
          cases hpu : cell gapp s1 s2 (i + 1) n with
          | none => simp only [hpd, hpu, Option.some_bind, Option.none_bind]
          | some pu =>
            simp only [hpd, hpu, hpl, Option.some_bind, Option.none_bind]

/-- If position `k` of sequence 2 holds a symbol whose substitution
lookups all fail, every cell at column `k + 1` or beyond and row at least
`1` fails. -/
theorem cell_none_bad2 (gapp : Int) (s1 s2 : List Char) (k : Nat)
    (hbad : ∀ c1, svalsLookup c1 (s2.getD k 'A') = none) :
    ∀ j, k + 1 ≤ j → ∀ i, 1 ≤ i → cell gapp s1 s2 i j = none := by
  intro j
  induction j with
  | zero => intro hj; exact absurd hj (by omega)
  | succ n ih =>
    intro hj i hi
    cases i with
    | zero => exact absurd hi (by omega)
    | succ i0 =>
      rw [cell_succ_succ]
      by_cases hnk : n = k
      · subst hnk
        cases hpd : cell gapp s1 s2 i0 n with
        | none => simp only [hpd, Option.none_bind]
        | some pd =>
          cases hpu : cell gapp s1 s2 (i0 + 1) n with
          | none => simp only [hpd, hpu, Option.some_bind, Option.none_bind]
          | some pu =>
            cases hpl : cell gapp s1 s2 i0 (n + 1) with
            | none => simp only [hpd, hpu, hpl, Option.some_bind, Option.none_bind]
            | some pl =>
              simp only [hpd, hpu, hpl, Option.some_bind, hbad (s1.getD i0 'A'),
                Option.none_bind]
      · have hpu := ih (by omega) (i0 + 1) (by omega)
        cases hpd : cell gapp s1 s2 i0 n with
        | none => simp only [hpd, Option.none_bind]
        | some pd =>
          simp only [hpd, hpu, Option.some_bind, Option.none_bind]

/-- Claim C7 as stated by the spec: a symbol of either input sequence
that is not a key of the substitution table makes `doAlignment` fail. -/
def claimInvalidSymbolFails : Prop :=
  ∀ (s1 s2 : List Char),
    ((∃ c ∈ s1, (svals.lookup c).isNone = true) ∨
     (∃ c ∈ s2, (svals.lookup c).isNone = true)) →
    doAlignment (setSequences initAlignment s1 s2) = none

/-- C7 counterexample: with `seq1 = "Z"` (not a key) and `seq2 = ""`, the
grid fill's inner loop never runs, no lookup is attempted, and
`doAlignment` succeeds, aligning `"Z"` against `"-"`. -/
theorem C7_invalid_symbol_counterexample :
    (svals.lookup 'Z').isNone = true ∧
    doAlignment (setSequences initAlignment ['Z'] []) ≠ none ∧
    ¬ claimInvalidSymbolFails := by
  refine ⟨by decide, by decide, fun h => ?_⟩
  have := h ['Z'] [] (Or.inl ⟨'Z', by decide, by decide⟩)
  exact absurd this (by decide)

/-- Claim C7 amended: when both sequences are nonempty (so that the grid
fill runs its inner loop and reaches a lookup), a symbol of either input
sequence that is not a key of the substitution table makes `doAlignment`
fail with a lookup failure during the grid fill. -/
theorem C7_invalid_symbol (s1 s2 : List Char) (h1 : s1 ≠ []) (h2 : s2 ≠ [])
    (hbad : (∃ c ∈ s1, (svals.lookup c).isNone = true) ∨
            (∃ c ∈ s2, (svals.lookup c).isNone = true)) :
    doAlignment (setSequences initAlignment s1 s2) = none := by
  rw [doAlignment_eq]
  have hcell : cell (setSequences initAlignment s1 s2).gapp
      (setSequences initAlignment s1 s2).seq1 (setSequences initAlignment s1 s2).seq2
      (setSequences initAlignment s1 s2).seq1.length
      (setSequences initAlignment s1 s2).seq2.length = none := by
    show cell (-6) s1 s2 s1.length s2.length = none
    rcases hbad with ⟨c, hc, hcn⟩ | ⟨c, hc, hcn⟩
    · obtain ⟨k, hck⟩ := List.mem_iff_get?.mp hc
      have hk : k < s1.length := List.get?_eq_some.mp hck |>.1
      have hgetD : s1.getD k 'A' = c := by
        rw [List.getD_eq_get?, hck]
        rfl
      refine cell_none_bad1 (-6) s1 s2 k ?_ s1.length (by omega) s2.length ?_
      · intro c2
        rw [hgetD]
        exact svalsLookup_none_left c c2 (Option.isNone_iff_eq_none.mp hcn)
      · have := List.length_pos.mpr h2
        omega
    · obtain ⟨k, hck⟩ := List.mem_iff_get?.mp hc
      have hk : k < s2.length := List.get?_eq_some.mp hck |>.1
      have hgetD : s2.getD k 'A' = c := by
        rw [List.getD_eq_get?, hck]
        rfl
      refine cell_none_bad2 (-6) s1 s2 k ?_ s2.length (by omega) s1.length ?_
      · intro c1
        rw [hgetD]
        exact svalsLookup_none_right c1 c (Option.isNone_iff_eq_none.mp hcn)
      · have := List.length_pos.mpr h1
        omega
  rw [hcell]
  rfl

/-- Witness for the amended C7: `"Z"` against `"A"` fails. -/
theorem C7_invalid_symbol_witness :
    doAlignment (setSequences initAlignment ['Z'] ['A']) = none :=
  C7_invalid_symbol ['Z'] ['A'] (by decide) (by decide)
    (Or.inl ⟨'Z', by decide, by decide⟩)

/-- Witness for C4 at a concrete tie between diagonal and up. -/
theorem C4_max_and_tiebreak_witness :
    (chooseCell 2 2 1).1 = max 2 (max 2 1) ∧
    ((2 : Int) ≥ 2 ∧ (2 : Int) ≥ 1 → (chooseCell 2 2 1).2 = 'd') ∧
    ((2 : Int) = 1 ∧ (2 : Int) > 2 → (chooseCell 2 2 1).2 = 'u') :=
  C4_max_and_tiebreak 2 2 1
